import Mathlib

/-!
Verification of the caching / idempotency / background-enrichment layer of a
multi-tenant task-tracking API.

The development shallowly embeds the relevant source modules:
  app/core/cache.py            (RedisCache adapter, cache-key functions)
  app/api/v1/routes/task.py    (create/get/list/update/delete task handlers)
  app/api/v1/routes/comment.py (create/get/update/delete comment handlers)
  app/api/v1/crud/task.py      (store queries and updates)
  app/api/v1/crud/comment.py   (store queries and updates)
  app/worker.py                (background enrichment job with tenacity retry)

External collaborators (the relational store engine, Python `hash`,
`datetime.fromisoformat`, the Redis transport) are modelled as parameters or
explicit state, mirroring the spec's scoping: the store is a list of rows,
`hash` and `fromisoformat` are opaque function parameters, and the Redis
transport is an explicit backend record that can fail.
-/

namespace TaskManager

/-- Python primitive values as they occur in the cache-key filter dict of
`get_tasks` (`app/api/v1/routes/task.py`): ints, strings, bools and `None`. -/
inductive PyVal where
  | pyNone : PyVal
  | pyInt  : Int → PyVal
  | pyStr  : String → PyVal
  | pyBool : Bool → PyVal
  deriving DecidableEq, Repr

/-- Python `str(v)` on the primitive values above (f-string interpolation in
`make_task_cache_key`). -/
def PyVal.toPyStr : PyVal → String
  | .pyNone   => "None"
  | .pyInt n  => toString n
  | .pyStr s  => s
  | .pyBool b => if b then "True" else "False"

/-- External collaborators that the embedded code calls but does not define:
Python's per-process string `hash`, `datetime.fromisoformat` (returning an
abstract timestamp on success), and the store clock assigning `created_at`. -/
structure Ext where
  pyhash   : String → Int
  parseIso : String → Option Int
  now      : Int

/-- Redis glob matching as used by `KEYS pattern` in
`RedisCache.delete_pattern`; the repository only uses the `*` wildcard.
Structural recursion on the pattern keeps the function kernel-reducible. -/
def globMatch : List Char → List Char → Bool
  | [], s => s.isEmpty
  | p :: ps, s =>
    if p = '*' then (s.tails).any (fun t => globMatch ps t)
    else
      match s with
      | [] => false
      | c :: cs => p = c && globMatch ps cs

/-- Lexicographic comparison of char lists by code point: Python's string
`<=` as `sorted` uses it on the (ASCII) filter-field names. -/
def strLeList : List Char → List Char → Bool
  | [], _ => true
  | _ :: _, [] => false
  | a :: as, b :: bs => if a = b then strLeList as bs else decide (a.toNat < b.toNat)

/-- String comparison on the underlying character lists. -/
def strLe (s1 s2 : String) : Bool :=
  strLeList s1.toList s2.toList

/-- Ordered insertion (helper of the executable sort). -/
def insertBy {α : Type} (le : α → α → Bool) (x : α) : List α → List α
  | [] => [x]
  | y :: ys => if le x y then x :: y :: ys else y :: insertBy le x ys

/-- Insertion sort; a kernel-reducible stand-in for the sorting the source
delegates to Python `sorted` / SQL `ORDER BY`. -/
def sortBy {α : Type} (le : α → α → Bool) (l : List α) : List α :=
  l.foldr (insertBy le) []

/-- Keys of pairs, sorted with Python `sorted(filters.items())`; with distinct
keys Python never compares the values, so ordering by key is faithful. -/
def sortPairs (l : List (String × PyVal)) : List (String × PyVal) :=
  sortBy (fun a b => strLe a.1 b.1) l

/-- The filter-serialization inside `make_task_cache_key`
(`app/core/cache.py` line 112):
`"_".join(f"{k}:{v}" for k, v in sorted(filters.items()) if v is not None)`. -/
def filter_str (filters : List (String × PyVal)) : String :=
  String.intercalate "_"
    (((sortPairs filters).filter (fun kv => kv.2 ≠ PyVal.pyNone)).map
      (fun kv => kv.1 ++ ":" ++ kv.2.toPyStr))

/-- `make_task_cache_key` (`app/core/cache.py` lines 110-113), parameterized
by Python's `hash`. -/
def make_task_cache_key (h : String → Int) (user_id : Nat)
    (filters : List (String × PyVal)) : String :=
  "tasks:user:" ++ toString user_id ++ ":" ++ toString (h (filter_str filters))

/-- `make_task_detail_cache_key` (`app/core/cache.py` lines 115-117). -/
def make_task_detail_cache_key (task_id : Nat) : String :=
  "task:" ++ toString task_id

/-- `make_user_tasks_cache_key` (`app/core/cache.py` lines 119-121), the
per-user collection invalidation pattern. -/
def make_user_tasks_cache_key (user_id : Nat) : String :=
  "tasks:user:" ++ toString user_id ++ ":*"

/-- Python truthiness of an optional string (`if value:` in the pydantic
validator and in the crud date filters): `None` and `""` are falsy. -/
def truthyStr : Option String → Bool
  | none => false
  | some s => !s.isEmpty

/-- Python `value.replace("Z", "+00:00")` applied before `fromisoformat`. -/
def replaceZ (s : String) : String :=
  String.mk (s.toList.flatMap (fun c => if c = 'Z' then "+00:00".toList else [c]))

/-- Row of the `tasks` table (`app/models/task.py`): id is the primary key,
`task_metadata` is the nullable JSON column written by the enrichment job.
Timestamps and the JSON document are abstract (`Int` and `String`). -/
structure Task where
  id            : Nat
  title         : String
  description   : Option String
  status        : String
  owner_id      : Nat
  created_at    : Int
  task_metadata : Option String
  deriving DecidableEq, Repr

/-- Row of the `comments` table (`app/models/comment.py`). -/
structure Comment where
  id         : Nat
  content    : String
  task_id    : Nat
  user_id    : Nat
  created_at : Int
  deriving DecidableEq, Repr

/-- The authenticated principal (`app/models/user.py` as seen by the
handlers): an id and a role string compared against "admin". -/
structure User where
  id   : Nat
  role : String
  deriving DecidableEq, Repr

/-- `TaskRead` response schema (`app/schemas/task.py`). -/
structure TaskRead where
  id            : Nat
  title         : String
  description   : Option String
  status        : String
  owner_id      : Nat
  created_at    : Int
  task_metadata : Option String
  deriving DecidableEq, Repr

/-- `TaskRead.from_orm` on a task row. -/
def TaskRead.from_orm (t : Task) : TaskRead :=
  ⟨t.id, t.title, t.description, t.status, t.owner_id, t.created_at, t.task_metadata⟩

/-- `CommentRead` response schema (`app/schemas/comment.py`). -/
structure CommentRead where
  id         : Nat
  content    : String
  task_id    : Nat
  user_id    : Nat
  created_at : Int
  deriving DecidableEq, Repr

/-- `CommentRead.from_orm` on a comment row. -/
def CommentRead.from_orm (c : Comment) : CommentRead :=
  ⟨c.id, c.content, c.task_id, c.user_id, c.created_at⟩

/-- `PaginatedResponse[TaskRead]` (`app/schemas/pagination.py`). -/
structure PageTR where
  items       : List TaskRead
  total       : Nat
  page        : Nat
  page_size   : Nat
  total_pages : Nat
  has_next    : Bool
  has_prev    : Bool
  deriving DecidableEq, Repr

/-- `PaginatedResponse.create` (`app/schemas/pagination.py` lines 30-47). -/
def PageTR.create (items : List TaskRead) (total page page_size : Nat) : PageTR :=
  let total_pages := (total + page_size - 1) / page_size
  ⟨items, total, page, page_size, total_pages,
    decide (page < total_pages), decide (1 < page)⟩

/-- Values the application stores in the cache: `TaskRead` detail payloads,
pagination payloads and idempotency response bodies (all dicts in Python);
one inductive stands for the deserialized shapes. -/
inductive CVal where
  | tread : TaskRead → CVal
  | page  : PageTR → CVal
  deriving DecidableEq, Repr

/-- Application-level cache keyspace with a functioning backend (the claims
about route behavior are stated within the idempotency/TTL retention window,
so expiry is not tracked). -/
abbrev Cache := List (String × CVal)

/-- Cache read (`RedisCache.get` on a healthy backend). -/
def cacheRead (c : Cache) (k : String) : Option CVal :=
  (List.find? (fun kv => kv.1 = k) c).map (·.2)

/-- Cache write (`RedisCache.set` on a healthy backend). -/
def cacheWrite (c : Cache) (k : String) (v : CVal) : Cache :=
  (k, v) :: List.filter (fun kv => kv.1 ≠ k) c

/-- Cache key deletion (`RedisCache.delete` on a healthy backend). -/
def cacheErase (c : Cache) (k : String) : Cache :=
  List.filter (fun kv => kv.1 ≠ k) c

/-- Pattern deletion (`RedisCache.delete_pattern` via `KEYS` glob). -/
def cacheErasePattern (c : Cache) (p : String) : Cache :=
  List.filter (fun kv => !globMatch p.toList kv.1.toList) c

/-- Observable I/O events of one request, used to state ordering properties:
store reads, store commits, cache operations, and the fire-and-forget
enqueue of the enrichment job. -/
inductive Event where
  | storeQuery : Event
  | storeCommit : Event
  | cacheGet : String → Event
  | cacheSet : String → Event
  | cacheDel : String → Event
  | cacheDelPattern : String → Event
  | enqueue : Nat → Event
  deriving DecidableEq, Repr

/-- Shared mutable state seen by one request: the two store tables, the
cache keyspace, and the store's id sequence for tasks and comments. -/
structure St where
  tasks         : List Task
  comments      : List Comment
  cache         : Cache
  nextTaskId    : Nat
  nextCommentId : Nat
  deriving Repr

/-- Handler results: HTTP error responses raised via `HTTPException`, a
pydantic `ValidationError` escaping the handler body, or a `TypeError`-like
failure from rebuilding a response model out of a wrong-shaped cached dict. -/
inductive HErr where
  | http : Nat → String → HErr
  | validation : String → HErr
  | typeErr : HErr
  deriving DecidableEq, Repr

/-- Lower-casing of an ASCII character, for the case-insensitive `ilike`
conditions of the store queries. -/
def lowerChar (c : Char) : Char :=
  if 'A' ≤ c ∧ c ≤ 'Z' then Char.ofNat (c.toNat + 32) else c

/-- Boolean list-prefix test (kernel-reducible helper for `ilike`). -/
def isPrefixList : List Char → List Char → Bool
  | [], _ => true
  | _ :: _, [] => false
  | a :: as, b :: bs => a = b && isPrefixList as bs

/-- Boolean contiguous-sublist test (kernel-reducible helper for `ilike`). -/
def isSubList (needle : List Char) : List Char → Bool
  | [] => needle.isEmpty
  | b :: bs => isPrefixList needle (b :: bs) || isSubList needle bs

/-- SQL `column ILIKE '%pat%'`: case-insensitive containment. -/
def ilikeContains (column pat : String) : Bool :=
  isSubList (pat.toList.map lowerChar) (column.toList.map lowerChar)

/-- `TaskFilters` (`app/schemas/pagination.py` lines 49-64), after pydantic
construction; `owner_id` is the value the route put in, already `None` for
non-admin callers. -/
structure TaskFilters where
  status         : Option String
  owner_id       : Option Nat
  title_contains : Option String
  created_after  : Option String
  created_before : Option String
  deriving DecidableEq, Repr

/-- Pydantic construction of `TaskFilters`: the `validate_date` validator
runs on truthy `created_after` / `created_before` and raises
`ValueError("Invalid ISO date format")` when `fromisoformat` fails
(`app/schemas/pagination.py` lines 57-64). -/
def TaskFilters.make (E : Ext) (status : Option String) (owner_id : Option Nat)
    (title_contains created_after created_before : Option String) :
    Except String TaskFilters :=
  let check : Option String → Except String Unit := fun v =>
    if truthyStr v then
      match E.parseIso (replaceZ (v.getD "")) with
      | some _ => .ok ()
      | none => .error "Invalid ISO date format"
    else .ok ()
  match check created_after, check created_before with
  | .error e, _ => .error e
  | _, .error e => .error e
  | .ok _, .ok _ => .ok ⟨status, owner_id, title_contains, created_after, created_before⟩

/-- `get_task_by_id` (`app/api/v1/crud/task.py` lines 161-171): first row
with the given primary key. -/
def get_task_by_id (db : List Task) (task_id : Nat) : Option Task :=
  List.find? (fun t => t.id = task_id) db

/-- The conjunction of filter conditions built by `get_tasks_with_pagination`
(`app/api/v1/crud/task.py` lines 49-82), with the two date conditions given
as already-parsed bounds. -/
def taskCond (filters : TaskFilters) (current_user_id : Nat) (is_admin : Bool)
    (after before : Option Int) (t : Task) : Bool :=
  (if !is_admin then decide (t.owner_id = current_user_id)
   else match filters.owner_id with
     | some oid => decide (t.owner_id = oid)
     | none => true) &&
  (if truthyStr filters.status then ilikeContains t.status (filters.status.getD "") else true) &&
  (if truthyStr filters.title_contains then
      ilikeContains t.title (filters.title_contains.getD "") else true) &&
  (match after with | some d => decide (d ≤ t.created_at) | none => true) &&
  (match before with | some d => decide (t.created_at ≤ d) | none => true)

/-- One date-filter condition of `get_tasks_with_pagination`
(`app/api/v1/crud/task.py` lines 66-78): a truthy date string is parsed,
raising HTTP 400 with the given message when `fromisoformat` fails. -/
def parseDateFilter (E : Ext) (v : Option String) (errMsg : String) :
    Except HErr (Option Int) :=
  if truthyStr v then
    match E.parseIso (replaceZ (v.getD "")) with
    | some d => .ok (some d)
    | none => .error (.http 400 errMsg)
  else .ok none

/-- `get_tasks_with_pagination` (`app/api/v1/crud/task.py` lines 34-103):
parses the two truthy date filters (`created_after` first, as in the
source), counts the rows matching the conditions, orders by `created_at`
descending, applies offset/limit, and returns the page plus the total. -/
def get_tasks_with_pagination (E : Ext) (db : List Task) (page page_size : Nat)
    (filters : TaskFilters) (current_user_id : Nat) (is_admin : Bool) :
    Except HErr (List Task × Nat) :=
  match parseDateFilter E filters.created_after "Invalid created_after date format" with
  | .error e => .error e
  | .ok after =>
    match parseDateFilter E filters.created_before "Invalid created_before date format" with
    | .error e => .error e
    | .ok before =>
      let cond := taskCond filters current_user_id is_admin after before
      let matching := db.filter cond
      let total := matching.length
      let ordered := sortBy (fun a b : Task => decide (b.created_at ≤ a.created_at)) matching
      let items := (ordered.drop ((page - 1) * page_size)).take page_size
      .ok (items, total)

/-- `create_task` crud (`app/api/v1/crud/task.py` lines 23-31): the store
assigns the next id and the creation timestamp; `task_metadata` starts NULL. -/
def crud_create_task (E : Ext) (db : List Task) (nextId : Nat)
    (title : String) (description : Option String) (status : String)
    (owner_id : Nat) : Task × List Task :=
  let t : Task := ⟨nextId, title, description, status, owner_id, E.now, none⟩
  (t, db ++ [t])

/-- One `column := value` assignment of the dynamic `values(**updates)`
update; the three columns come from the `TaskUpdate` schema. A NULL write
into a non-nullable column would be rejected by the store and is outside
the modelled executions. -/
def applyUpd1 (t : Task) : String × Option String → Task
  | ("title", some v) => { t with title := v }
  | ("description", v) => { t with description := v }
  | ("status", some v) => { t with status := v }
  | _ => t

/-- `update_task` crud (`app/api/v1/crud/task.py` lines 174-189):
`UPDATE tasks SET ... WHERE id = task_id RETURNING *`; returns the new table
and the updated row (`None` when no row matched). -/
def crud_update_task (db : List Task) (task_id : Nat)
    (updates : List (String × Option String)) : List Task × Option Task :=
  match get_task_by_id db task_id with
  | none => (db, none)
  | some t =>
    (db.map (fun r => if r.id = task_id then updates.foldl applyUpd1 r else r),
     some (updates.foldl applyUpd1 t))

/-- `delete_task` crud (`app/api/v1/crud/task.py` lines 192-195): removes
the row with the given primary key. -/
def crud_delete_task (db : List Task) (task_id : Nat) : List Task :=
  db.filter (fun t => t.id ≠ task_id)

/-- `update_task_metadata` (`app/api/v1/crud/task.py` lines 198-203): sets
`task_metadata` on the row with the given primary key and commits; no other
column is touched. -/
def update_task_metadata (db : List Task) (task_id : Nat) (meta : String) :
    List Task :=
  db.map (fun t => if t.id = task_id then { t with task_metadata := some meta } else t)

/-- `get_comment_by_id` (`app/api/v1/crud/comment.py` lines 72-74). -/
def get_comment_by_id (db : List Comment) (comment_id : Nat) : Option Comment :=
  List.find? (fun c => c.id = comment_id) db

/-- `create_comment` crud (`app/api/v1/crud/comment.py` lines 9-28). -/
def crud_create_comment (E : Ext) (db : List Comment) (nextId : Nat)
    (task_id : Nat) (content : String) (user_id : Nat) : Comment × List Comment :=
  let c : Comment := ⟨nextId, content, task_id, user_id, E.now⟩
  (c, db ++ [c])

/-- `update_comment` crud (`app/api/v1/crud/comment.py` lines 170-177): the
route passes the fetched comment object and `{"content": content}`; the
`setattr` plus commit becomes an update of the row with that primary key. -/
def crud_update_comment (db : List Comment) (c : Comment) (content : String) :
    List Comment × Comment :=
  (db.map (fun r => if r.id = c.id then { r with content := content } else r),
   { c with content := content })

/-- `delete_comment` crud (`app/api/v1/crud/comment.py` lines 77-79). -/
def crud_delete_comment (db : List Comment) (comment_id : Nat) : List Comment :=
  db.filter (fun c => c.id ≠ comment_id)

/-- `TaskCreate` request schema (`app/schemas/task.py` lines 5-8). -/
structure TaskCreate where
  title       : String
  description : Option String
  status      : String
  deriving DecidableEq, Repr

/-- PyVal of an optional string route parameter. -/
def optStrVal : Option String → PyVal
  | none => .pyNone
  | some s => .pyStr s

/-- PyVal of an optional integer filter value. -/
def optIntVal : Option Nat → PyVal
  | none => .pyNone
  | some n => .pyInt n

/-- The `create_task` route handler (`app/api/v1/routes/task.py` lines
26-57): on a truthy idempotency key, look up the stored response and return
it verbatim on a hit; otherwise create the task, store the response under
the idempotency key, invalidate the caller's collection pattern and enqueue
the enrichment job. -/
def create_task (E : Ext) (st : St) (u : User) (idempotency_key : Option String)
    (tin : TaskCreate) : Except HErr TaskRead × St × List Event :=
  let fresh : List Event → Except HErr TaskRead × St × List Event := fun ev0 =>
    let (task, db') :=
      crud_create_task E st.tasks st.nextTaskId tin.title tin.description tin.status u.id
    let tr := TaskRead.from_orm task
    let (cache1, ev1) :=
      if truthyStr idempotency_key then
        let ik := "idempotency:" ++ idempotency_key.getD ""
        (cacheWrite st.cache ik (CVal.tread tr), [Event.cacheSet ik])
      else (st.cache, [])
    let pat := make_user_tasks_cache_key u.id
    (.ok tr,
     { st with tasks := db', nextTaskId := st.nextTaskId + 1,
               cache := cacheErasePattern cache1 pat },
     ev0 ++ Event.storeCommit :: ev1 ++ [Event.cacheDelPattern pat, Event.enqueue task.id])
  if truthyStr idempotency_key then
    let ik := "idempotency:" ++ idempotency_key.getD ""
    match cacheRead st.cache ik with
    | some (CVal.tread tr) => (.ok tr, st, [Event.cacheGet ik])
    | some _ => (.error .typeErr, st, [Event.cacheGet ik])
    | none => fresh [Event.cacheGet ik]
  else fresh []

/-- The dict literal passed to `make_task_cache_key` by the `get_tasks`
route (`app/api/v1/routes/task.py` lines 81-93). -/
def taskListKeyDict (u : User) (page page_size : Nat)
    (status : Option String) (fOwner : Option Nat)
    (title_contains created_after created_before : Option String) :
    List (String × PyVal) :=
  [("page", .pyInt page), ("page_size", .pyInt page_size),
   ("status", optStrVal status), ("owner_id", optIntVal fOwner),
   ("title_contains", optStrVal title_contains),
   ("created_after", optStrVal created_after),
   ("created_before", optStrVal created_before),
   ("is_admin", .pyBool (u.role = "admin"))]

/-- The `get_tasks` route handler (`app/api/v1/routes/task.py` lines 59-113):
builds `TaskFilters` (dropping `owner_id` for non-admin callers; pydantic
validation can reject here), derives the collection cache key, serves a hit,
and otherwise queries the store and populates the cache. A date-format
failure inside the crud call aborts before any query executes, so it emits
no store events. -/
def get_tasks (E : Ext) (st : St) (u : User) (page page_size : Nat)
    (status : Option String) (owner_id : Option Nat)
    (title_contains created_after created_before : Option String) :
    Except HErr PageTR × St × List Event :=
  match TaskFilters.make E status (if u.role = "admin" then owner_id else none)
      title_contains created_after created_before with
  | .error e => (.error (.validation e), st, [])
  | .ok filters =>
    let cache_key := make_task_cache_key E.pyhash u.id
      (taskListKeyDict u page page_size status filters.owner_id
        title_contains created_after created_before)
    match cacheRead st.cache cache_key with
    | some (CVal.page p) => (.ok p, st, [Event.cacheGet cache_key])
    | some _ => (.error .typeErr, st, [Event.cacheGet cache_key])
    | none =>
      match get_tasks_with_pagination E st.tasks page page_size filters u.id
          (u.role = "admin") with
      | .error e => (.error e, st, [Event.cacheGet cache_key])
      | .ok (tasks, total) =>
        let resp := PageTR.create (tasks.map TaskRead.from_orm) total page page_size
        (.ok resp, { st with cache := cacheWrite st.cache cache_key (CVal.page resp) },
         [Event.cacheGet cache_key, Event.storeQuery, Event.storeQuery,
          Event.cacheSet cache_key])

/-- The `get_task` route handler (`app/api/v1/routes/task.py` lines 115-140):
on a cache hit the cached payload's `owner_id` is re-checked against the
caller before returning; on a miss the store row is checked, then cached. -/
def get_task (st : St) (u : User) (task_id : Nat) :
    Except HErr TaskRead × St × List Event :=
  let key := make_task_detail_cache_key task_id
  match cacheRead st.cache key with
  | some (CVal.tread tr) =>
    if u.role ≠ "admin" ∧ tr.owner_id ≠ u.id then
      (.error (.http 403 "Forbidden"), st, [Event.cacheGet key])
    else (.ok tr, st, [Event.cacheGet key])
  | some _ => (.error .typeErr, st, [Event.cacheGet key])
  | none =>
    match get_task_by_id st.tasks task_id with
    | none => (.error (.http 404 "Task not found"), st, [Event.cacheGet key, Event.storeQuery])
    | some t =>
      if u.role ≠ "admin" ∧ t.owner_id ≠ u.id then
        (.error (.http 403 "Forbidden"), st, [Event.cacheGet key, Event.storeQuery])
      else
        let tr := TaskRead.from_orm t
        (.ok tr, { st with cache := cacheWrite st.cache key (CVal.tread tr) },
         [Event.cacheGet key, Event.storeQuery, Event.cacheSet key])

/-- The `update_task` route handler (`app/api/v1/routes/task.py` lines
142-168): fetch, authorize, reject an empty update body, commit the update,
then invalidate the detail key, the caller's collection pattern, and (for
admins) the global task-collection pattern. -/
def update_task (st : St) (u : User) (task_id : Nat)
    (update_data : List (String × Option String)) :
    Except HErr TaskRead × St × List Event :=
  match get_task_by_id st.tasks task_id with
  | none => (.error (.http 404 "Task not found"), st, [Event.storeQuery])
  | some t =>
    if u.role ≠ "admin" ∧ t.owner_id ≠ u.id then
      (.error (.http 403 "Forbidden"), st, [Event.storeQuery])
    else if update_data.isEmpty then
      (.error (.http 400 "No fields to update"), st, [Event.storeQuery])
    else
      match crud_update_task st.tasks task_id update_data with
      | (db', none) =>
        (.error (.http 404 "Task not found"), { st with tasks := db' },
         [Event.storeQuery, Event.storeCommit])
      | (db', some t') =>
        let dkey := make_task_detail_cache_key task_id
        let pat := make_user_tasks_cache_key u.id
        let c2 := cacheErasePattern (cacheErase st.cache dkey) pat
        let (c3, ev3) :=
          if u.role = "admin" then
            (cacheErasePattern c2 "tasks:user:*", [Event.cacheDelPattern "tasks:user:*"])
          else (c2, [])
        (.ok (TaskRead.from_orm t'), { st with tasks := db', cache := c3 },
         [Event.storeQuery, Event.storeCommit, Event.cacheDel dkey,
          Event.cacheDelPattern pat] ++ ev3)

/-- The `delete_task` route handler (`app/api/v1/routes/task.py` lines
169-186): fetch, authorize, delete, then invalidate the detail key and the
caller's collection pattern. -/
def delete_task (st : St) (u : User) (task_id : Nat) :
    Except HErr Unit × St × List Event :=
  match get_task_by_id st.tasks task_id with
  | none => (.error (.http 404 "Task not found"), st, [Event.storeQuery])
  | some t =>
    if u.role ≠ "admin" ∧ t.owner_id ≠ u.id then
      (.error (.http 403 "Forbidden"), st, [Event.storeQuery])
    else
      let db' := crud_delete_task st.tasks task_id
      let dkey := make_task_detail_cache_key task_id
      let pat := make_user_tasks_cache_key u.id
      (.ok (), { st with tasks := db',
                         cache := cacheErasePattern (cacheErase st.cache dkey) pat },
       [Event.storeQuery, Event.storeCommit, Event.cacheDel dkey,
        Event.cacheDelPattern pat])

/-- The `create_comment` route handler (`app/api/v1/routes/comment.py` lines
29-58): verify the parent task exists, authorize (non-admins may comment
only on their own tasks), create, then invalidate the global comment pattern
and the parent task's detail key. -/
def create_comment (E : Ext) (st : St) (u : User) (task_id : Nat)
    (content : String) : Except HErr CommentRead × St × List Event :=
  match get_task_by_id st.tasks task_id with
  | none => (.error (.http 404 "Task not found"), st, [Event.storeQuery])
  | some t =>
    if u.role ≠ "admin" ∧ t.owner_id ≠ u.id then
      (.error (.http 403 "Forbidden"), st, [Event.storeQuery])
    else
      let (c, db') := crud_create_comment E st.comments st.nextCommentId task_id content u.id
      let dkey := "task:" ++ toString task_id
      (.ok (CommentRead.from_orm c),
       { st with comments := db', nextCommentId := st.nextCommentId + 1,
                 cache := cacheErase (cacheErasePattern st.cache "comments:*") dkey },
       [Event.storeQuery, Event.storeCommit, Event.cacheDelPattern "comments:*",
        Event.cacheDel dkey])

/-- The `get_comment` route handler (`app/api/v1/routes/comment.py` lines
118-141): a non-admin caller who is not the author is allowed only when the
parent task exists and they own it. No cache is involved. -/
def get_comment (st : St) (u : User) (comment_id : Nat) :
    Except HErr CommentRead × St × List Event :=
  match get_comment_by_id st.comments comment_id with
  | none => (.error (.http 404 "Comment not found"), st, [Event.storeQuery])
  | some c =>
    if u.role ≠ "admin" ∧ c.user_id ≠ u.id then
      match get_task_by_id st.tasks c.task_id with
      | none => (.error (.http 403 "Forbidden"), st, [Event.storeQuery, Event.storeQuery])
      | some t =>
        if t.owner_id ≠ u.id then
          (.error (.http 403 "Forbidden"), st, [Event.storeQuery, Event.storeQuery])
        else (.ok (CommentRead.from_orm c), st, [Event.storeQuery, Event.storeQuery])
    else (.ok (CommentRead.from_orm c), st, [Event.storeQuery])

/-- The `update_comment` route handler (`app/api/v1/routes/comment.py` lines
144-173): fetch, authorize (author or admin), commit the content update,
then invalidate the global comment pattern and the parent task's detail key. -/
def update_comment (st : St) (u : User) (comment_id : Nat) (content : String) :
    Except HErr CommentRead × St × List Event :=
  match get_comment_by_id st.comments comment_id with
  | none => (.error (.http 404 "Comment not found"), st, [Event.storeQuery])
  | some c =>
    if u.role ≠ "admin" ∧ c.user_id ≠ u.id then
      (.error (.http 403 "Forbidden"), st, [Event.storeQuery])
    else
      let (db', c') := crud_update_comment st.comments c content
      let dkey := "task:" ++ toString c.task_id
      (.ok (CommentRead.from_orm c'),
       { st with comments := db',
                 cache := cacheErase (cacheErasePattern st.cache "comments:*") dkey },
       [Event.storeQuery, Event.storeCommit, Event.cacheDelPattern "comments:*",
        Event.cacheDel dkey])

/-- The `delete_comment` route handler (`app/api/v1/routes/comment.py` lines
176-201): fetch, authorize (author or admin), delete, then invalidate the
global comment pattern and the parent task's detail key. -/
def delete_comment (st : St) (u : User) (comment_id : Nat) :
    Except HErr Unit × St × List Event :=
  match get_comment_by_id st.comments comment_id with
  | none => (.error (.http 404 "Comment not found"), st, [Event.storeQuery])
  | some c =>
    if u.role ≠ "admin" ∧ c.user_id ≠ u.id then
      (.error (.http 403 "Forbidden"), st, [Event.storeQuery])
    else
      let db' := crud_delete_comment st.comments comment_id
      let dkey := "task:" ++ toString c.task_id
      (.ok (),
       { st with comments := db',
                 cache := cacheErase (cacheErasePattern st.cache "comments:*") dkey },
       [Event.storeQuery, Event.storeCommit, Event.cacheDelPattern "comments:*",
        Event.cacheDel dkey])

/-- Outcome of one external HTTP fetch (`httpx` GET plus `raise_for_status`)
inside `_fetch_task_metadata_async` (`app/worker.py` lines 28-31). -/
inductive FetchOutcome where
  | success : String → FetchOutcome
  | requestError : FetchOutcome
  | httpStatusError : FetchOutcome
  | otherError : FetchOutcome
  deriving DecidableEq, Repr

/-- Exceptions escaping the worker body: the two `httpx` transport errors
tenacity retries on, any other exception, and tenacity's own `RetryError`
raised after the retry budget is exhausted. -/
inductive PyExc where
  | requestError : PyExc
  | httpStatusError : PyExc
  | otherExc : PyExc
  | retryError : PyExc
  deriving DecidableEq, Repr

/-- The `retry_if_exception_type((httpx.RequestError, httpx.HTTPStatusError))`
predicate of the tenacity decorator (`app/worker.py` line 21). -/
def retryable : PyExc → Bool
  | .requestError => true
  | .httpStatusError => true
  | _ => false

/-- One attempt of `_fetch_task_metadata_async` (`app/worker.py` lines
24-42): perform the external fetch first; only on success look the task up
and write its metadata (so a failed attempt never writes). Any exception is
logged and re-raised. -/
def attemptBody (db : List Task) (task_id : Nat) :
    FetchOutcome → Except PyExc (List Task)
  | .success meta =>
    match get_task_by_id db task_id with
    | some _ => .ok (update_task_metadata db task_id meta)
    | none => .ok db
  | .requestError => .error .requestError
  | .httpStatusError => .error .httpStatusError
  | .otherError => .error .otherExc

/-- The tenacity retry loop with `stop_after_attempt(3)` (`app/worker.py`
lines 18-23): the nth attempt sees `fetches n`; a retryable failure before
the third attempt retries, a retryable failure on the third attempt raises
`RetryError`, a non-retryable failure re-raises immediately. Returns the
number of attempts performed, the resulting table, and the escaping
exception if any. -/
def retryLoop (fetches : Nat → FetchOutcome) (db : List Task) (task_id : Nat) :
    Nat → Nat → Nat × List Task × Option PyExc
  | attemptIdx, 0 => (attemptIdx, db, some .retryError)
  | attemptIdx, fuel + 1 =>
    match attemptBody db task_id (fetches attemptIdx) with
    | .ok db' => (attemptIdx + 1, db', none)
    | .error e =>
      if retryable e then
        if attemptIdx + 1 < 3 then retryLoop fetches db task_id (attemptIdx + 1) fuel
        else (attemptIdx + 1, db, some .retryError)
      else (attemptIdx + 1, db, some e)

/-- `fetch_task_metadata` (`app/worker.py` lines 13-16): run the retrying
async body to completion; three units of fuel cover `stop_after_attempt(3)`. -/
def fetch_task_metadata (fetches : Nat → FetchOutcome) (db : List Task)
    (task_id : Nat) : Nat × List Task × Option PyExc :=
  retryLoop fetches db task_id 0 3

/-- The Redis transport as the adapter sees it (`redis.asyncio` client):
establishing the client can fail (`redis.from_url` raising inside
`RedisCache.connect`), and each command can fail. Stored values are kept in
deserialized form; the JSON-first/pickle-fallback codec round-trips them. -/
structure Backend where
  connectOk : Bool
  getR : String → Except String (Option CVal)
  setR : String → CVal → Except String Unit
  delR : String → Except String Nat
  keysR : String → Except String (List String)
  delManyR : List String → Except String Nat

/-- `RedisCache.get` (`app/core/cache.py` lines 40-54): the lazy
`self.connect()` runs outside the `try`, so its failure propagates; a
failure of the `GET` command itself is caught, logged, and degrades to
`None`. -/
def RedisCache.get (b : Backend) (connected : Bool) (key : String) :
    Except String (Option CVal) :=
  if ¬ connected ∧ ¬ b.connectOk then .error "connect failed"
  else
    match b.getR key with
    | .ok v => .ok v
    | .error _ => .ok none

/-- `RedisCache.set` (`app/core/cache.py` lines 56-70): connect outside the
`try`; a `SETEX` failure is caught and reported as `False`. -/
def RedisCache.set (b : Backend) (connected : Bool) (key : String) (v : CVal) :
    Except String Bool :=
  if ¬ connected ∧ ¬ b.connectOk then .error "connect failed"
  else
    match b.setR key v with
    | .ok _ => .ok true
    | .error _ => .ok false

/-- `RedisCache.delete` (`app/core/cache.py` lines 72-82): connect outside
the `try`; a `DEL` failure is caught and reported as `False`, success
reports whether a key was removed. -/
def RedisCache.delete (b : Backend) (connected : Bool) (key : String) :
    Except String Bool :=
  if ¬ connected ∧ ¬ b.connectOk then .error "connect failed"
  else
    match b.delR key with
    | .ok n => .ok (decide (0 < n))
    | .error _ => .ok false

/-- `RedisCache.delete_pattern` (`app/core/cache.py` lines 84-97): connect
outside the `try`; a failure of `KEYS` or of the bulk `DEL` is caught and
reported as `0`. -/
def RedisCache.delete_pattern (b : Backend) (connected : Bool) (pattern : String) :
    Except String Nat :=
  if ¬ connected ∧ ¬ b.connectOk then .error "connect failed"
  else
    match b.keysR pattern with
    | .error _ => .ok 0
    | .ok keys =>
      if keys.isEmpty then .ok 0
      else
        match b.delManyR keys with
        | .ok n => .ok n
        | .error _ => .ok 0

/-- Cache-invalidation events (single-key delete or pattern delete). -/
def Event.isInval : Event → Bool
  | .cacheDel _ => true
  | .cacheDelPattern _ => true
  | _ => false

/-- Store-commit events. -/
def Event.isCommit : Event → Bool
  | .storeCommit => true
  | _ => false

/-- Every cache-invalidation event in the trace is preceded by a store
commit: the happens-after ordering of 4.5 within one request. -/
def invalAfterCommit (tr : List Event) : Prop :=
  ∀ (n : Nat) (e : Event), tr[n]? = some e → e.isInval = true →
    ∃ (m : Nat) (e' : Event), m < n ∧ tr[m]? = some e' ∧ e'.isCommit = true

/-- A trace with no invalidation events satisfies the ordering vacuously. -/
theorem invalAfterCommit_of_no_inval (tr : List Event)
    (h : ∀ e ∈ tr, e.isInval = false) : invalAfterCommit tr := by
  unfold invalAfterCommit
  intro n e hget hinv
  have hmem : e ∈ tr := by
    rcases List.getElem?_eq_some.1 hget with ⟨hlt, rfl⟩
    exact List.getElem_mem hlt
  rw [h e hmem] at hinv
  cases hinv

/-- A trace of the form `pre ++ storeCommit :: post` where `pre` contains no
invalidation event satisfies the ordering: every invalidation sits after the
commit. -/
theorem invalAfterCommit_shape (pre post : List Event)
    (h : ∀ e ∈ pre, e.isInval = false) :
    invalAfterCommit (pre ++ Event.storeCommit :: post) := by
  unfold invalAfterCommit
  intro n e hget hinv
  rcases lt_or_le n pre.length with hn | hn
  · rw [List.getElem?_append, if_pos hn] at hget
    have hmem : e ∈ pre := by
      rcases List.getElem?_eq_some.1 hget with ⟨hlt, rfl⟩
      exact List.getElem_mem hlt
    rw [h e hmem] at hinv
    cases hinv
  · rcases lt_or_eq_of_le hn with hn' | hn'
    · refine ⟨pre.length, Event.storeCommit, hn', ?_, rfl⟩
      rw [List.getElem?_append, if_neg (lt_irrefl _)]
      simp
    · exfalso
      rw [← hn', List.getElem?_append, if_neg (lt_irrefl _)] at hget
      simp at hget
      rw [← hget] at hinv
      cases hinv

/-- `find?` commutes with a `filter` that keeps everything the `find?`
predicate accepts. -/
theorem find?_filter_of_imp {α : Type} (l : List α) (p q : α → Bool)
    (h : ∀ a, p a = true → q a = true) :
    (l.filter q).find? p = l.find? p := by
  induction l with
  | nil => rfl
  | cons a l ih =>
    by_cases hq : q a = true
    · rw [List.filter_cons_of_pos hq]
      by_cases hp : p a = true
      · rw [List.find?_cons_of_pos _ hp, List.find?_cons_of_pos _ hp]
      · rw [List.find?_cons_of_neg _ hp, List.find?_cons_of_neg _ hp, ih]
    · have hp : ¬ p a = true := fun hpa => hq (h a hpa)
      rw [List.filter_cons_of_neg (by simpa using hq),
          List.find?_cons_of_neg _ hp, ih]

/-- A glob pattern whose head is a literal character different from the
subject's head never matches. -/
theorem globMatch_false_of_head_ne (p c : Char) (ps cs : List Char)
    (hp : p ≠ '*') (hne : p ≠ c) :
    globMatch (p :: ps) (c :: cs) = false := by
  rw [globMatch]
  simp [hp, hne]

/-- Looking a task up by its primary key after a metadata update finds the
same row with only `task_metadata` rewritten. -/
theorem upd_find (db : List Task) (tid : Nat) (m : String) :
    get_task_by_id (update_task_metadata db tid m) tid
      = Option.map (fun t => if t.id = tid then { t with task_metadata := some m } else t)
          (get_task_by_id db tid) := by
  unfold get_task_by_id update_task_metadata
  rw [List.find?_map]
  have hcomp : ((fun t : Task => decide (t.id = tid)) ∘
      (fun t => if t.id = tid then { t with task_metadata := some m } else t))
      = (fun t : Task => decide (t.id = tid)) := by
    funext t
    by_cases h : t.id = tid <;> simp [Function.comp, h]
  rw [hcomp]

/-- Two metadata updates of the same row collapse to the latest one. -/
theorem upd_upd (db : List Task) (tid : Nat) (m1 m2 : String) :
    update_task_metadata (update_task_metadata db tid m1) tid m2
      = update_task_metadata db tid m2 := by
  unfold update_task_metadata
  rw [List.map_map]
  congr 1
  funext t
  by_cases h : t.id = tid <;> simp [Function.comp, h]

/-- C4: when every attempt of the external fetch fails with a retryable
transport failure, the background enrichment job performs exactly 3
attempts, then stops (tenacity raises its terminal `RetryError`, no further
retry), and the task table is unchanged — in particular the task's
`task_metadata` stays unset and no partial write happened on any failed
attempt. -/
theorem enrichment_retry_bound (fetches : Nat → FetchOutcome) (db : List Task)
    (task_id : Nat)
    (hf : ∀ n, fetches n = FetchOutcome.requestError ∨
          fetches n = FetchOutcome.httpStatusError) :
    fetch_task_metadata fetches db task_id = (3, db, some PyExc.retryError) := by
  have h0 := hf 0
  have h1 := hf 1
  have h2 := hf 2
  rcases h0 with h0 | h0 <;> rcases h1 with h1 | h1 <;> rcases h2 with h2 | h2 <;>
    simp [fetch_task_metadata, retryLoop, attemptBody, retryable, h0, h1, h2]

/-- Witness for C4 at a concrete table and a permanently failing fetch. -/
theorem enrichment_retry_bound_witness :
    fetch_task_metadata (fun _ => FetchOutcome.requestError)
      [⟨1, "t", none, "pending", 2, 0, none⟩] 1
      = (3, [⟨1, "t", none, "pending", 2, 0, none⟩], some PyExc.retryError) :=
  enrichment_retry_bound _ _ _ (fun _ => Or.inl rfl)

/-- C5: on a successful external response the enrichment job performs one
attempt and updates only the `task_metadata` column of the target row:
every row of the resulting table agrees with the original row on id, title,
description, status, owner and created timestamp; and running the job a
second time with a second successful response leaves the non-metadata
fields untouched with `task_metadata` equal to the latest fetched value. -/
theorem enrichment_metadata_only (fetches1 fetches2 : Nat → FetchOutcome)
    (db : List Task) (task_id : Nat) (m1 m2 : String) (t : Task)
    (h1 : fetches1 0 = FetchOutcome.success m1)
    (h2 : fetches2 0 = FetchOutcome.success m2)
    (hfound : get_task_by_id db task_id = some t) :
    fetch_task_metadata fetches1 db task_id
      = (1, update_task_metadata db task_id m1, none) ∧
    (∀ r' ∈ update_task_metadata db task_id m1, ∃ r ∈ db,
        r'.id = r.id ∧ r'.title = r.title ∧ r'.description = r.description ∧
        r'.status = r.status ∧ r'.owner_id = r.owner_id ∧ r'.created_at = r.created_at ∧
        r'.task_metadata = (if r.id = task_id then some m1 else r.task_metadata)) ∧
    fetch_task_metadata fetches2 (fetch_task_metadata fetches1 db task_id).2.1 task_id
      = (1, update_task_metadata db task_id m2, none) := by
  have hrun1 : fetch_task_metadata fetches1 db task_id
      = (1, update_task_metadata db task_id m1, none) := by
    simp [fetch_task_metadata, retryLoop, attemptBody, h1, hfound]
  refine ⟨hrun1, ?_, ?_⟩
  · intro r' hr'
    unfold update_task_metadata at hr'
    rw [List.mem_map] at hr'
    obtain ⟨r, hr, rfl⟩ := hr'
    refine ⟨r, hr, ?_⟩
    by_cases h : r.id = task_id <;> simp [h]
  · rw [hrun1]
    have hf2 : get_task_by_id (update_task_metadata db task_id m1) task_id
        = some (if t.id = task_id then { t with task_metadata := some m1 } else t) := by
      rw [upd_find, hfound]
      rfl
    simp [fetch_task_metadata, retryLoop, attemptBody, h2, hf2, upd_upd]

/-- Witness for C5: two successive successful runs on a one-row table leave
the row's other fields intact and its metadata at the latest value. -/
theorem enrichment_metadata_only_witness :
    fetch_task_metadata (fun _ => FetchOutcome.success "m1")
      [⟨1, "t", none, "pending", 2, 0, none⟩] 1
      = (1, [⟨1, "t", none, "pending", 2, 0, some "m1"⟩], none) ∧
    fetch_task_metadata (fun _ => FetchOutcome.success "m2")
      (fetch_task_metadata (fun _ => FetchOutcome.success "m1")
        [⟨1, "t", none, "pending", 2, 0, none⟩] 1).2.1 1
      = (1, [⟨1, "t", none, "pending", 2, 0, some "m2"⟩], none) :=
  ⟨(enrichment_metadata_only (fun _ => FetchOutcome.success "m1")
      (fun _ => FetchOutcome.success "m2") [⟨1, "t", none, "pending", 2, 0, none⟩]
      1 "m1" "m2" ⟨1, "t", none, "pending", 2, 0, none⟩ rfl rfl rfl).1,
   (enrichment_metadata_only (fun _ => FetchOutcome.success "m1")
      (fun _ => FetchOutcome.success "m2") [⟨1, "t", none, "pending", 2, 0, none⟩]
      1 "m1" "m2" ⟨1, "t", none, "pending", 2, 0, none⟩ rfl rfl rfl).2.2⟩

/-- C6 (amended): once a connection is established — or when the lazy
connect step succeeds — no cache operation raises to its caller: a failing
backend command degrades to `None` for `get`, `False` for `set` and
`delete`, and `0` for `delete_pattern`, and each operation always returns
normally. -/
theorem cache_errors_degrade (b : Backend) (connected : Bool)
    (k p : String) (v : CVal)
    (hconn : connected = true ∨ b.connectOk = true) :
    (∃ r, RedisCache.get b connected k = .ok r) ∧
    (∃ r, RedisCache.set b connected k v = .ok r) ∧
    (∃ r, RedisCache.delete b connected k = .ok r) ∧
    (∃ r, RedisCache.delete_pattern b connected p = .ok r) ∧
    (∀ e, b.getR k = .error e → RedisCache.get b connected k = .ok none) ∧
    (∀ e, b.setR k v = .error e → RedisCache.set b connected k v = .ok false) ∧
    (∀ e, b.delR k = .error e → RedisCache.delete b connected k = .ok false) ∧
    (∀ e, b.keysR p = .error e → RedisCache.delete_pattern b connected p = .ok 0) := by
  have hc : ¬ (¬ connected = true ∧ ¬ b.connectOk = true) := by
    rcases hconn with h | h <;> simp [h]
  unfold RedisCache.get RedisCache.set RedisCache.delete RedisCache.delete_pattern
  rw [if_neg hc, if_neg hc, if_neg hc, if_neg hc]
  refine ⟨?_, ?_, ?_, ?_, ?_, ?_, ?_, ?_⟩
  · rcases hg : b.getR k with e | r <;> simp
  · rcases hg : b.setR k v with e | r <;> simp
  · rcases hg : b.delR k with e | r <;> simp
  · rcases hg : b.keysR p with e | ks
    · simp
    · by_cases hks : ks.isEmpty
      · simp [hks]
      · rcases hd : b.delManyR ks with e | n <;> simp [hks, hd]
  · intro e he
    rw [he]
  · intro e he
    rw [he]
  · intro e he
    rw [he]
  · intro e he
    rw [he]

/-- Witness for the amended C6: a connected adapter over a backend whose
every command fails returns the degraded results instead of raising. -/
theorem cache_errors_degrade_witness :
    RedisCache.get
      ⟨true, fun _ => .error "boom", fun _ _ => .error "boom",
       fun _ => .error "boom", fun _ => .error "boom", fun _ => .error "boom"⟩
      false "k" = .ok none ∧
    RedisCache.set
      ⟨true, fun _ => .error "boom", fun _ _ => .error "boom",
       fun _ => .error "boom", fun _ => .error "boom", fun _ => .error "boom"⟩
      false "k" (CVal.tread ⟨1, "t", none, "pending", 2, 0, none⟩) = .ok false ∧
    RedisCache.delete
      ⟨true, fun _ => .error "boom", fun _ _ => .error "boom",
       fun _ => .error "boom", fun _ => .error "boom", fun _ => .error "boom"⟩
      false "k" = .ok false ∧
    RedisCache.delete_pattern
      ⟨true, fun _ => .error "boom", fun _ _ => .error "boom",
       fun _ => .error "boom", fun _ => .error "boom", fun _ => .error "boom"⟩
      false "p" = .ok 0 :=
  ⟨(cache_errors_degrade _ false "k" "p"
      (CVal.tread ⟨1, "t", none, "pending", 2, 0, none⟩) (Or.inr rfl)).2.2.2.2.1 "boom" rfl,
   (cache_errors_degrade _ false "k" "p"
      (CVal.tread ⟨1, "t", none, "pending", 2, 0, none⟩) (Or.inr rfl)).2.2.2.2.2.1 "boom" rfl,
   (cache_errors_degrade _ false "k" "p"
      (CVal.tread ⟨1, "t", none, "pending", 2, 0, none⟩) (Or.inr rfl)).2.2.2.2.2.2.1 "boom" rfl,
   (cache_errors_degrade _ false "k" "p"
      (CVal.tread ⟨1, "t", none, "pending", 2, 0, none⟩) (Or.inr rfl)).2.2.2.2.2.2.2 "boom" rfl⟩

/-- Counterexample to C6 as stated: a failure of the connection-establishment
step (the lazy `self.connect()` sits outside the `try` block in every
operation of `app/core/cache.py`) propagates to the caller instead of
degrading, so cache operations are not exception-free "including failures
occurring while establishing the backend connection". -/
theorem cache_connect_raises_cex :
    RedisCache.get
      ⟨false, fun _ => .ok none, fun _ _ => .ok (), fun _ => .ok 0,
       fun _ => .ok [], fun _ => .ok 0⟩
      false "k" = .error "connect failed" := rfl

/-- C2: a non-admin principal never receives, via the cache path or the
store path of `get_task`, a task payload they do not own (the cached
payload's `owner_id` is re-checked on a hit, the store row's on a miss),
and never receives via `get_comment` a comment they neither authored nor
have on a task they own. -/
theorem nonadmin_visibility (st : St) (u : User) (task_id comment_id : Nat)
    (hrole : u.role ≠ "admin") :
    (∀ tr, (get_task st u task_id).1 = .ok tr → tr.owner_id = u.id) ∧
    (∀ c, (get_comment st u comment_id).1 = .ok c →
      c.user_id = u.id ∨
      ∃ t, get_task_by_id st.tasks c.task_id = some t ∧ t.owner_id = u.id) := by
  constructor
  · intro tr htr
    unfold get_task at htr
    simp only [] at htr
    rcases hcv : cacheRead st.cache (make_task_detail_cache_key task_id) with _ | cv
    · rw [hcv] at htr
      rcases hdb : get_task_by_id st.tasks task_id with _ | t
      · rw [hdb] at htr
        cases htr
      · rw [hdb] at htr
        by_cases hcond : u.role ≠ "admin" ∧ t.owner_id ≠ u.id
        · simp only [if_pos hcond] at htr
          cases htr
        · simp only [if_neg hcond] at htr
          simp only [Except.ok.injEq] at htr
          subst htr
          rcases not_and_or.1 hcond with h | h
          · exact absurd hrole h
          · simpa [TaskRead.from_orm] using not_ne_iff.1 h
    · rcases cv with tr0 | p0
      · rw [hcv] at htr
        by_cases hcond : u.role ≠ "admin" ∧ tr0.owner_id ≠ u.id
        · simp only [if_pos hcond] at htr
          cases htr
        · simp only [if_neg hcond] at htr
          simp only [Except.ok.injEq] at htr
          subst htr
          rcases not_and_or.1 hcond with h | h
          · exact absurd hrole h
          · exact not_ne_iff.1 h
      · rw [hcv] at htr
        cases htr
  · intro c hc
    unfold get_comment at hc
    rcases hdb : get_comment_by_id st.comments comment_id with _ | c0
    · rw [hdb] at hc
      cases hc
    · rw [hdb] at hc
      by_cases hcond : u.role ≠ "admin" ∧ c0.user_id ≠ u.id
      · simp only [if_pos hcond] at hc
        rcases ht : get_task_by_id st.tasks c0.task_id with _ | t
        · rw [ht] at hc
          cases hc
        · rw [ht] at hc
          by_cases howner : t.owner_id ≠ u.id
          · simp only [if_pos howner] at hc
            cases hc
          · simp only [if_neg howner] at hc
            simp only [Except.ok.injEq] at hc
            subst hc
            exact Or.inr ⟨t, ht, not_ne_iff.1 howner⟩
      · simp only [if_neg hcond] at hc
        simp only [Except.ok.injEq] at hc
        subst hc
        rcases not_and_or.1 hcond with h | h
        · exact absurd hrole h
        · exact Or.inl (not_ne_iff.1 h)

/-- Witness for C2: a non-admin caller reading their own task through the
store path receives a payload whose owner field is their own id. -/
theorem nonadmin_visibility_witness :
    TaskRead.owner_id ⟨1, "t", none, "pending", 5, 0, none⟩ = 5 :=
  (nonadmin_visibility
    ⟨[⟨1, "t", none, "pending", 5, 0, none⟩], [⟨1, "hi", 1, 5, 0⟩], [], 2, 2⟩
    ⟨5, "user"⟩ 1 1 (by decide)).1 ⟨1, "t", none, "pending", 5, 0, none⟩ rfl


/-- Counterexample to C3 as stated: an admin (id 1) deleting a task owned by
principal 2 deletes the task's detail key but invalidates only the caller's
collection pattern `tasks:user:1:*`; the entity owner's pattern
`tasks:user:2:*` is not invalidated. -/
theorem admin_delete_skips_owner_pattern_cex :
    (delete_task ⟨[⟨1, "t", none, "pending", 2, 0, none⟩], [], [], 2, 1⟩ ⟨1, "admin"⟩ 1).1
      = .ok () ∧
    Event.cacheDelPattern (make_user_tasks_cache_key 2)
      ∉ (delete_task ⟨[⟨1, "t", none, "pending", 2, 0, none⟩], [], [], 2, 1⟩ ⟨1, "admin"⟩ 1).2.2 := by
  constructor
  · rfl
  · decide

/-- C3 (amended): every mutating operation invalidates, synchronously before
returning, the caller-scoped cache entries: a task creation that actually
performs the store mutation invalidates the caller's collection pattern; a
task update or delete invalidates the task's detail key and the caller's
collection pattern, an admin update additionally the global `tasks:user:*`
pattern (which covers the owner); comment create/update/delete invalidate
the global comment pattern and the parent task's detail key. The entity
owner's own pattern is invalidated exactly when the caller is the owner or
(for task updates) the caller is an admin; an admin delete of another
principal's task leaves the owner's pattern uninvalidated. -/
theorem mutation_invalidation_scope (E : Ext) (st : St) (u : User)
    (idem : Option String) (tin : TaskCreate) (tid cid : Nat)
    (upd : List (String × Option String)) (content : String) :
    (Event.storeCommit ∈ (create_task E st u idem tin).2.2 →
        Event.cacheDelPattern (make_user_tasks_cache_key u.id)
          ∈ (create_task E st u idem tin).2.2) ∧
    (∀ r, (update_task st u tid upd).1 = .ok r →
        Event.cacheDel (make_task_detail_cache_key tid) ∈ (update_task st u tid upd).2.2 ∧
        Event.cacheDelPattern (make_user_tasks_cache_key u.id) ∈ (update_task st u tid upd).2.2 ∧
        (u.role = "admin" →
          Event.cacheDelPattern "tasks:user:*" ∈ (update_task st u tid upd).2.2)) ∧
    ((delete_task st u tid).1 = .ok () →
        Event.cacheDel (make_task_detail_cache_key tid) ∈ (delete_task st u tid).2.2 ∧
        Event.cacheDelPattern (make_user_tasks_cache_key u.id) ∈ (delete_task st u tid).2.2) ∧
    (∀ r, (create_comment E st u tid content).1 = .ok r →
        Event.cacheDelPattern "comments:*" ∈ (create_comment E st u tid content).2.2 ∧
        Event.cacheDel ("task:" ++ toString tid) ∈ (create_comment E st u tid content).2.2) ∧
    (∀ r c0, get_comment_by_id st.comments cid = some c0 →
        (update_comment st u cid content).1 = .ok r →
        Event.cacheDelPattern "comments:*" ∈ (update_comment st u cid content).2.2 ∧
        Event.cacheDel ("task:" ++ toString c0.task_id) ∈ (update_comment st u cid content).2.2) ∧
    (∀ c0, get_comment_by_id st.comments cid = some c0 →
        (delete_comment st u cid).1 = .ok () →
        Event.cacheDelPattern "comments:*" ∈ (delete_comment st u cid).2.2 ∧
        Event.cacheDel ("task:" ++ toString c0.task_id) ∈ (delete_comment st u cid).2.2) := by
  refine ⟨?_, ?_, ?_, ?_, ?_, ?_⟩
  · intro hcommit
    unfold create_task at hcommit ⊢
    simp only [] at hcommit ⊢
    by_cases hidem : truthyStr idem = true
    · simp only [hidem, if_true] at hcommit ⊢
      rcases hcv : cacheRead st.cache ("idempotency:" ++ idem.getD "") with _ | cv
      · simp
      · rw [hcv] at hcommit
        rcases cv with tr0 | p0 <;> simp at hcommit
    · simp only [hidem, if_false] at hcommit ⊢
      simp
  · intro r hr
    unfold update_task at hr ⊢
    rcases hdb : get_task_by_id st.tasks tid with _ | t <;> rw [hdb] at hr
    · simp at hr
    · by_cases hcond : u.role ≠ "admin" ∧ t.owner_id ≠ u.id
      · simp only [if_pos hcond] at hr
        simp at hr
      · simp only [if_neg hcond] at hr ⊢
        by_cases hemp : upd.isEmpty = true
        · simp only [hemp, if_true] at hr
          simp at hr
        · simp only [hemp, if_false] at hr ⊢
          rcases hcu : crud_update_task st.tasks tid upd with ⟨db', t?⟩
          rw [hcu] at hr
          rcases t? with _ | t'
          · simp at hr
          · by_cases hadm : u.role = "admin" <;> simp [hadm]
  · intro hr
    unfold delete_task at hr ⊢
    rcases hdb : get_task_by_id st.tasks tid with _ | t <;> rw [hdb] at hr
    · simp at hr
    · by_cases hcond : u.role ≠ "admin" ∧ t.owner_id ≠ u.id
      · simp only [if_pos hcond] at hr
        simp at hr
      · simp only [if_neg hcond] at hr ⊢
        simp
  · intro r hr
    unfold create_comment at hr ⊢
    rcases hdb : get_task_by_id st.tasks tid with _ | t <;> rw [hdb] at hr
    · simp at hr
    · by_cases hcond : u.role ≠ "admin" ∧ t.owner_id ≠ u.id
      · simp only [if_pos hcond] at hr
        simp at hr
      · simp only [if_neg hcond] at hr ⊢
        simp
  · intro r c0 hc0 hr
    unfold update_comment at hr ⊢
    rw [hc0] at hr ⊢
    by_cases hcond : u.role ≠ "admin" ∧ c0.user_id ≠ u.id
    · simp only [if_pos hcond] at hr
      simp at hr
    · simp only [if_neg hcond] at hr ⊢
      simp
  · intro c0 hc0 hr
    unfold delete_comment at hr ⊢
    rw [hc0] at hr ⊢
    by_cases hcond : u.role ≠ "admin" ∧ c0.user_id ≠ u.id
    · simp only [if_pos hcond] at hr
      simp at hr
    · simp only [if_neg hcond] at hr ⊢
      simp

/-- Witness for the amended C3: an owner deleting their own task emits the
detail-key invalidation. -/
theorem mutation_invalidation_scope_witness :
    Event.cacheDel (make_task_detail_cache_key 1)
      ∈ (delete_task ⟨[⟨1, "t", none, "pending", 5, 0, none⟩], [], [], 2, 1⟩
          ⟨5, "user"⟩ 1).2.2 :=
  ((mutation_invalidation_scope ⟨fun _ => 0, fun _ => none, 0⟩
      ⟨[⟨1, "t", none, "pending", 5, 0, none⟩], [], [], 2, 1⟩ ⟨5, "user"⟩
      none ⟨"t", none, "pending"⟩ 1 1 [] "c").2.2.1 rfl).1


/-- C7: within every single mutating request (task update/delete, comment
create/update/delete), on every execution path, each cache-invalidation
event in the request's trace is strictly preceded by the store commit. -/
theorem inval_after_commit_ordering (E : Ext) (st : St) (u : User) (tid cid : Nat)
    (upd : List (String × Option String)) (content : String) :
    invalAfterCommit (update_task st u tid upd).2.2 ∧
    invalAfterCommit (delete_task st u tid).2.2 ∧
    invalAfterCommit (create_comment E st u tid content).2.2 ∧
    invalAfterCommit (update_comment st u cid content).2.2 ∧
    invalAfterCommit (delete_comment st u cid).2.2 := by
  have hq : ∀ e ∈ [Event.storeQuery], e.isInval = false := by
    intro e he
    simp at he
    subst he
    rfl
  have hq2' : ∀ e ∈ [Event.storeQuery, Event.storeCommit], e.isInval = false := by
    intro e he
    simp at he
    rcases he with h | h <;> subst h <;> rfl
  refine ⟨?_, ?_, ?_, ?_, ?_⟩
  · unfold update_task
    rcases get_task_by_id st.tasks tid with _ | t <;> dsimp only
    · exact invalAfterCommit_of_no_inval _ hq
    · by_cases hcond : u.role ≠ "admin" ∧ t.owner_id ≠ u.id
      · rw [if_pos hcond]
        exact invalAfterCommit_of_no_inval _ hq
      · rw [if_neg hcond]
        by_cases hemp : upd.isEmpty = true
        · rw [if_pos hemp]
          exact invalAfterCommit_of_no_inval _ hq
        · rw [if_neg hemp]
          rcases crud_update_task st.tasks tid upd with ⟨db', t?⟩
          rcases t? with _ | t' <;> dsimp only
          · exact invalAfterCommit_of_no_inval _ hq2'
          · by_cases hadm : u.role = "admin"
            · rw [if_pos hadm]
              exact invalAfterCommit_shape [Event.storeQuery] _ hq
            · rw [if_neg hadm]
              exact invalAfterCommit_shape [Event.storeQuery] _ hq
  · unfold delete_task
    rcases get_task_by_id st.tasks tid with _ | t <;> dsimp only
    · exact invalAfterCommit_of_no_inval _ hq
    · by_cases hcond : u.role ≠ "admin" ∧ t.owner_id ≠ u.id
      · rw [if_pos hcond]
        exact invalAfterCommit_of_no_inval _ hq
      · rw [if_neg hcond]
        exact invalAfterCommit_shape [Event.storeQuery] _ hq
  · unfold create_comment
    rcases get_task_by_id st.tasks tid with _ | t <;> dsimp only
    · exact invalAfterCommit_of_no_inval _ hq
    · by_cases hcond : u.role ≠ "admin" ∧ t.owner_id ≠ u.id
      · rw [if_pos hcond]
        exact invalAfterCommit_of_no_inval _ hq
      · rw [if_neg hcond]
        exact invalAfterCommit_shape [Event.storeQuery] _ hq
  · unfold update_comment
    rcases get_comment_by_id st.comments cid with _ | c <;> dsimp only
    · exact invalAfterCommit_of_no_inval _ hq
    · by_cases hcond : u.role ≠ "admin" ∧ c.user_id ≠ u.id
      · rw [if_pos hcond]
        exact invalAfterCommit_of_no_inval _ hq
      · rw [if_neg hcond]
        exact invalAfterCommit_shape [Event.storeQuery] _ hq
  · unfold delete_comment
    rcases get_comment_by_id st.comments cid with _ | c <;> dsimp only
    · exact invalAfterCommit_of_no_inval _ hq
    · by_cases hcond : u.role ≠ "admin" ∧ c.user_id ≠ u.id
      · rw [if_pos hcond]
        exact invalAfterCommit_of_no_inval _ hq
      · rw [if_neg hcond]
        exact invalAfterCommit_shape [Event.storeQuery] _ hq

/-- Reading a key immediately after writing it returns the written value. -/
theorem cacheRead_write_self (c : Cache) (k : String) (v : CVal) :
    cacheRead (cacheWrite c k v) k = some v := by
  unfold cacheRead cacheWrite
  rw [List.find?_cons_of_pos _ (by simp)]
  rfl

/-- A pattern deletion leaves reads of non-matching keys unchanged. -/
theorem cacheRead_erasePattern_of_no_match (c : Cache) (p k : String)
    (h : globMatch p.toList k.toList = false) :
    cacheRead (cacheErasePattern c p) k = cacheRead c k := by
  unfold cacheRead cacheErasePattern
  rw [find?_filter_of_imp]
  intro kv hkv
  have : kv.1 = k := by simpa using hkv
  rw [this, h]
  rfl

/-- The per-user collection pattern starts with the character `t`. -/
theorem userPat_head (uid : Nat) :
    (make_user_tasks_cache_key uid).toList
      = 't' :: ("asks:user:".data ++ ((toString uid).data ++ ":*".data)) := by
  show (("tasks:user:" ++ toString uid) ++ ":*").data = _
  rw [String.data_append, String.data_append]
  rw [show "tasks:user:".data = 't' :: "asks:user:".data from rfl]
  simp

/-- Idempotency keys start with the character `i`. -/
theorem idemKey_head (k : String) :
    ("idempotency:" ++ k).toList = 'i' :: ("dempotency:".data ++ k.data) := by
  show ("idempotency:" ++ k).data = _
  rw [String.data_append]
  rw [show "idempotency:".data = 'i' :: "dempotency:".data from rfl]
  rfl

/-- The per-user collection invalidation pattern never matches an
idempotency key, so the invalidation in `create_task` cannot evict the
just-stored idempotency record. -/
theorem userPat_not_match_idemKey (uid : Nat) (k : String) :
    globMatch (make_user_tasks_cache_key uid).toList
      ("idempotency:" ++ k).toList = false := by
  rw [userPat_head, idemKey_head]
  exact globMatch_false_of_head_ne 't' 'i' _ _ (by decide) (by decide)

/-- C1: issuing the same creation request twice with the same fresh
idempotency token (within the retention window): both invocations return
identical responses, the first persists exactly one task, and the second
changes no state and performs only the idempotency lookup — it returns the
stored response without re-executing the mutation. -/
theorem create_task_idempotent (E : Ext) (st : St) (u : User) (k : String)
    (tin : TaskCreate)
    (hk : k ≠ "")
    (hfresh : cacheRead st.cache ("idempotency:" ++ k) = none) :
    (create_task E (create_task E st u (some k) tin).2.1 u (some k) tin).1
      = (create_task E st u (some k) tin).1 ∧
    (create_task E st u (some k) tin).2.1.tasks
      = st.tasks ++ [⟨st.nextTaskId, tin.title, tin.description, tin.status, u.id, E.now, none⟩] ∧
    (create_task E (create_task E st u (some k) tin).2.1 u (some k) tin).2.1
      = (create_task E st u (some k) tin).2.1 ∧
    (create_task E (create_task E st u (some k) tin).2.1 u (some k) tin).2.2
      = [Event.cacheGet ("idempotency:" ++ k)] := by
  have hke : k.isEmpty = false := by
    rcases Bool.eq_false_or_eq_true k.isEmpty with h | h
    · exact absurd ((String.isEmpty_iff k).1 h) hk
    · exact h
  have htr : truthyStr (some k) = true := by
    simp [truthyStr, hke]
  have h1 : create_task E st u (some k) tin
      = (.ok (TaskRead.from_orm ⟨st.nextTaskId, tin.title, tin.description, tin.status, u.id, E.now, none⟩),
         { st with
             tasks := st.tasks ++ [⟨st.nextTaskId, tin.title, tin.description, tin.status, u.id, E.now, none⟩],
             nextTaskId := st.nextTaskId + 1,
             cache := cacheErasePattern
               (cacheWrite st.cache ("idempotency:" ++ k)
                 (CVal.tread (TaskRead.from_orm
                   ⟨st.nextTaskId, tin.title, tin.description, tin.status, u.id, E.now, none⟩)))
               (make_user_tasks_cache_key u.id) },
         [Event.cacheGet ("idempotency:" ++ k), Event.storeCommit,
          Event.cacheSet ("idempotency:" ++ k),
          Event.cacheDelPattern (make_user_tasks_cache_key u.id),
          Event.enqueue st.nextTaskId]) := by
    unfold create_task
    simp only [htr, if_true, Option.getD_some]
    rw [hfresh]
    rfl
  have hread1 : cacheRead (create_task E st u (some k) tin).2.1.cache ("idempotency:" ++ k)
      = some (CVal.tread (TaskRead.from_orm
          ⟨st.nextTaskId, tin.title, tin.description, tin.status, u.id, E.now, none⟩)) := by
    rw [h1]
    show cacheRead (cacheErasePattern _ _) _ = _
    rw [cacheRead_erasePattern_of_no_match _ _ _ (userPat_not_match_idemKey u.id k),
        cacheRead_write_self]
  have h2 : create_task E (create_task E st u (some k) tin).2.1 u (some k) tin
      = (.ok (TaskRead.from_orm ⟨st.nextTaskId, tin.title, tin.description, tin.status, u.id, E.now, none⟩),
         (create_task E st u (some k) tin).2.1,
         [Event.cacheGet ("idempotency:" ++ k)]) := by
    conv in create_task E (create_task E st u (some k) tin).2.1 u (some k) tin =>
      rw [create_task]
    simp only [htr, if_true, Option.getD_some]
    rw [hread1]
  refine ⟨?_, ?_, ?_, ?_⟩
  · rw [h2, h1]
  · rw [h1]
  · rw [h2]
  · rw [h2]

/-- Witness for C1: a concrete double submission with token "abc". -/
theorem create_task_idempotent_witness :
    (create_task ⟨fun _ => 0, fun _ => none, 7⟩
        (create_task ⟨fun _ => 0, fun _ => none, 7⟩ ⟨[], [], [], 1, 1⟩ ⟨5, "user"⟩
          (some "abc") ⟨"t", none, "pending"⟩).2.1
        ⟨5, "user"⟩ (some "abc") ⟨"t", none, "pending"⟩).1
      = (create_task ⟨fun _ => 0, fun _ => none, 7⟩ ⟨[], [], [], 1, 1⟩ ⟨5, "user"⟩
          (some "abc") ⟨"t", none, "pending"⟩).1 ∧
    (create_task ⟨fun _ => 0, fun _ => none, 7⟩ ⟨[], [], [], 1, 1⟩ ⟨5, "user"⟩
        (some "abc") ⟨"t", none, "pending"⟩).2.1.tasks
      = [] ++ [⟨1, "t", none, "pending", 5, 7, none⟩] ∧
    (create_task ⟨fun _ => 0, fun _ => none, 7⟩
        (create_task ⟨fun _ => 0, fun _ => none, 7⟩ ⟨[], [], [], 1, 1⟩ ⟨5, "user"⟩
          (some "abc") ⟨"t", none, "pending"⟩).2.1
        ⟨5, "user"⟩ (some "abc") ⟨"t", none, "pending"⟩).2.1
      = (create_task ⟨fun _ => 0, fun _ => none, 7⟩ ⟨[], [], [], 1, 1⟩ ⟨5, "user"⟩
          (some "abc") ⟨"t", none, "pending"⟩).2.1 ∧
    (create_task ⟨fun _ => 0, fun _ => none, 7⟩
        (create_task ⟨fun _ => 0, fun _ => none, 7⟩ ⟨[], [], [], 1, 1⟩ ⟨5, "user"⟩
          (some "abc") ⟨"t", none, "pending"⟩).2.1
        ⟨5, "user"⟩ (some "abc") ⟨"t", none, "pending"⟩).2.2
      = [Event.cacheGet ("idempotency:" ++ "abc")] :=
  create_task_idempotent ⟨fun _ => 0, fun _ => none, 7⟩ ⟨[], [], [], 1, 1⟩
    ⟨5, "user"⟩ "abc" ⟨"t", none, "pending"⟩ (by decide) rfl


/-- The code-point comparison is total. -/
theorem strLeList_total (as : List Char) : ∀ bs,
    strLeList as bs = true ∨ strLeList bs as = true := by
  induction as with
  | nil => intro bs; left; rfl
  | cons a as ih =>
    intro bs
    cases bs with
    | nil => right; rfl
    | cons b bs =>
      by_cases hab : a = b
      · subst hab
        simp only [strLeList, if_pos rfl]
        exact ih bs
      · have hba : b ≠ a := fun h => hab h.symm
        simp only [strLeList, if_neg hab, if_neg hba]
        rcases Nat.lt_trichotomy a.toNat b.toNat with h | h | h
        · left; exact decide_eq_true h
        · exact absurd (Char.ext (UInt32.ext h)) hab
        · right; exact decide_eq_true h

/-- The code-point comparison is transitive. -/
theorem strLeList_trans (as : List Char) : ∀ bs cs,
    strLeList as bs = true → strLeList bs cs = true → strLeList as cs = true := by
  induction as with
  | nil => intro bs cs _ _; rfl
  | cons a as ih =>
    intro bs cs h1 h2
    cases bs with
    | nil => cases h1
    | cons b bs =>
      cases cs with
      | nil => cases h2
      | cons c cs =>
        by_cases hab : a = b <;> by_cases hbc : b = c
        · subst hab; subst hbc
          simp only [strLeList, if_pos rfl] at h1 h2 ⊢
          exact ih bs cs h1 h2
        · subst hab
          simp only [strLeList, if_pos rfl, if_neg hbc] at h1 h2 ⊢
          exact h2
        · subst hbc
          simp only [strLeList, if_pos rfl, if_neg hab] at h1 h2 ⊢
          exact h1
        · simp only [strLeList, if_neg hab, if_neg hbc] at h1 h2
          have hl1 := of_decide_eq_true h1
          have hl2 := of_decide_eq_true h2
          have hac : a ≠ c := by
            intro he
            subst he
            exact absurd (Nat.lt_trans hl1 hl2) (Nat.lt_irrefl _)
          simp only [strLeList, if_neg hac]
          exact decide_eq_true (Nat.lt_trans hl1 hl2)

/-- The code-point comparison is antisymmetric. -/
theorem strLeList_antisymm (as : List Char) : ∀ bs,
    strLeList as bs = true → strLeList bs as = true → as = bs := by
  induction as with
  | nil =>
    intro bs _ h2
    cases bs with
    | nil => rfl
    | cons b bs => cases h2
  | cons a as ih =>
    intro bs h1 h2
    cases bs with
    | nil => cases h1
    | cons b bs =>
      by_cases hab : a = b
      · subst hab
        simp only [strLeList, if_pos rfl] at h1 h2
        rw [ih bs h1 h2]
      · have hba : b ≠ a := fun h => hab h.symm
        simp only [strLeList, if_neg hab, if_neg hba] at h1 h2
        exact absurd (Nat.lt_trans (of_decide_eq_true h1) (of_decide_eq_true h2))
          (Nat.lt_irrefl _)

/-- Mutually ≤ strings are equal. -/
theorem strLe_antisymm (s1 s2 : String) (h1 : strLe s1 s2 = true)
    (h2 : strLe s2 s1 = true) : s1 = s2 :=
  String.ext (strLeList_antisymm _ _ h1 h2)

/-- Ordered insertion permutes the extended list. -/
theorem insertBy_perm {α : Type} (le : α → α → Bool) (x : α) (l : List α) :
    (insertBy le x l).Perm (x :: l) := by
  induction l with
  | nil => exact List.Perm.refl _
  | cons y ys ih =>
    unfold insertBy
    by_cases h : le x y = true
    · rw [if_pos h]
    · rw [if_neg h]
      exact (ih.cons y).trans (List.Perm.swap x y ys)

/-- The sort is a permutation of its input. -/
theorem sortBy_perm {α : Type} (le : α → α → Bool) (l : List α) :
    (sortBy le l).Perm l := by
  induction l with
  | nil => exact List.Perm.refl _
  | cons x xs ih =>
    show (insertBy le x (sortBy le xs)).Perm (x :: xs)
    exact (insertBy_perm le x (sortBy le xs)).trans (ih.cons x)

/-- Ordered insertion preserves sortedness for a total transitive order. -/
theorem pairwise_insertBy {α : Type} (le : α → α → Bool)
    (htrans : ∀ a b c, le a b = true → le b c = true → le a c = true)
    (htotal : ∀ a b, le a b = true ∨ le b a = true) (x : α) (l : List α)
    (hl : List.Pairwise (fun a b => le a b = true) l) :
    List.Pairwise (fun a b => le a b = true) (insertBy le x l) := by
  induction l with
  | nil => exact List.pairwise_singleton _ _
  | cons y ys ih =>
    rcases List.pairwise_cons.1 hl with ⟨hy, hys⟩
    unfold insertBy
    by_cases h : le x y = true
    · rw [if_pos h]
      refine List.pairwise_cons.2 ⟨?_, hl⟩
      intro z hz
      rcases List.mem_cons.1 hz with rfl | hz
      · exact h
      · exact htrans x y z h (hy z hz)
    · rw [if_neg h]
      have hyx : le y x = true := (htotal x y).resolve_left h
      refine List.pairwise_cons.2 ⟨?_, ih hys⟩
      intro z hz
      have : z ∈ x :: ys := (insertBy_perm le x ys).mem_iff.1 hz
      rcases List.mem_cons.1 this with rfl | hz2
      · exact hyx
      · exact hy z hz2

/-- The sort output is sorted for a total transitive order. -/
theorem pairwise_sortBy {α : Type} (le : α → α → Bool)
    (htrans : ∀ a b c, le a b = true → le b c = true → le a c = true)
    (htotal : ∀ a b, le a b = true ∨ le b a = true) (l : List α) :
    List.Pairwise (fun a b => le a b = true) (sortBy le l) := by
  induction l with
  | nil => exact List.Pairwise.nil
  | cons x xs ih =>
    show List.Pairwise _ (insertBy le x (sortBy le xs))
    exact pairwise_insertBy le htrans htotal x _ ih

/-- Sorting by field name maps permuted filter dicts with distinct keys to
the same normalized list: the normalization step of `make_task_cache_key`. -/
theorem sortPairs_eq_of_perm (F1 F2 : List (String × PyVal))
    (hperm : F1.Perm F2) (hnd : (F1.map Prod.fst).Nodup) :
    sortPairs F1 = sortPairs F2 := by
  have htrans : ∀ a b c : String × PyVal, strLe a.1 b.1 = true → strLe b.1 c.1 = true →
      strLe a.1 c.1 = true := fun a b c h1 h2 => strLeList_trans _ _ _ h1 h2
  have htotal : ∀ a b : String × PyVal, strLe a.1 b.1 = true ∨ strLe b.1 a.1 = true :=
    fun a b => strLeList_total _ _
  have h1 : (sortPairs F1).Perm (sortPairs F2) :=
    ((sortBy_perm _ F1).trans hperm).trans (sortBy_perm _ F2).symm
  have hs1 := pairwise_sortBy (fun a b : String × PyVal => strLe a.1 b.1) htrans htotal F1
  have hs2 := pairwise_sortBy (fun a b : String × PyVal => strLe a.1 b.1) htrans htotal F2
  have hnd1 : ((sortPairs F1).map Prod.fst).Nodup :=
    (((sortBy_perm _ F1).map Prod.fst).nodup_iff).2 hnd
  have hnd2 : ((sortPairs F2).map Prod.fst).Nodup :=
    ((h1.map Prod.fst).nodup_iff).1 hnd1
  have hne1 : List.Pairwise (fun a b : String × PyVal => a.1 ≠ b.1) (sortPairs F1) :=
    List.pairwise_map.1 hnd1
  have hne2 : List.Pairwise (fun a b : String × PyVal => a.1 ≠ b.1) (sortPairs F2) :=
    List.pairwise_map.1 hnd2
  haveI : IsAntisymm (String × PyVal)
      (fun a b => strLe a.1 b.1 = true ∧ a.1 ≠ b.1) :=
    ⟨fun a b hab hba => absurd (strLe_antisymm _ _ hab.1 hba.1) hab.2⟩
  exact List.eq_of_perm_of_sorted h1 (hs1.and hne1) (hs2.and hne2)

/-- C8 (amended): the collection cache key is stable across repeated calls
with the same, possibly reordered, filter items (fields sorted by name,
null values dropped, then hashed); and for one principal two keys coincide
exactly when the rendered hashes of the normalized serializations coincide,
so distinctness holds modulo collision of the hash of the serialization —
but the serialization itself can collide for distinct filter sets. -/
theorem collection_key_stability (h : String → Int) (uid : Nat)
    (F1 F2 : List (String × PyVal))
    (hperm : F1.Perm F2) (hnd : (F1.map Prod.fst).Nodup) :
    make_task_cache_key h uid F1 = make_task_cache_key h uid F2 ∧
    (∀ G1 G2 : List (String × PyVal),
      make_task_cache_key h uid G1 = make_task_cache_key h uid G2 ↔
      toString (h (filter_str G1)) = toString (h (filter_str G2))) := by
  constructor
  · unfold make_task_cache_key filter_str
    rw [sortPairs_eq_of_perm F1 F2 hperm hnd]
  · intro G1 G2
    unfold make_task_cache_key
    constructor
    · intro he
      have hd := congrArg String.data he
      rw [String.data_append, String.data_append] at hd
      exact String.ext (List.append_cancel_left hd)
    · intro he
      rw [he]

/-- Witness for the amended C8: reordering the page/status filter items
leaves the derived key unchanged. -/
theorem collection_key_stability_witness :
    make_task_cache_key (fun s => (s.length : Int)) 7
      [("page", PyVal.pyInt 1), ("status", PyVal.pyStr "pending")]
      = make_task_cache_key (fun s => (s.length : Int)) 7
        [("status", PyVal.pyStr "pending"), ("page", PyVal.pyInt 1)] :=
  (collection_key_stability (fun s => (s.length : Int)) 7
    [("page", PyVal.pyInt 1), ("status", PyVal.pyStr "pending")]
    [("status", PyVal.pyStr "pending"), ("page", PyVal.pyInt 1)]
    (List.Perm.swap _ _ _) (by decide)).1

/-- Counterexample to C8 as stated: two logically distinct filter sets whose
unescaped `k:v` serializations joined with `_` coincide, producing equal
cache keys with no hash collision involved (shown for an injective-on-this-
pair hash; the serializations themselves are equal, so every hash gives
equal keys). -/
theorem filter_serialization_collision_cex :
    ([("status", PyVal.pyStr "x_title_contains:y")] : List (String × PyVal))
      ≠ [("status", PyVal.pyStr "x"), ("title_contains", PyVal.pyStr "y")] ∧
    filter_str [("status", PyVal.pyStr "x_title_contains:y")]
      = filter_str [("status", PyVal.pyStr "x"), ("title_contains", PyVal.pyStr "y")] ∧
    make_task_cache_key (fun s => (s.length : Int)) 7
      [("status", PyVal.pyStr "x_title_contains:y")]
      = make_task_cache_key (fun s => (s.length : Int)) 7
        [("status", PyVal.pyStr "x"), ("title_contains", PyVal.pyStr "y")] := by
  refine ⟨by decide, by decide, by decide⟩

/-- Counterexample to C9 as stated: a task-update request with an empty
body is rejected with the specific 400 message, but only after the
task-existence store query has already executed — the trace contains a
store query, so the rejection does not precede every store access. -/
theorem empty_update_after_store_query_cex :
    (update_task ⟨[⟨1, "t", none, "pending", 5, 0, none⟩], [], [], 2, 1⟩
        ⟨5, "user"⟩ 1 []).1 = .error (.http 400 "No fields to update") ∧
    (update_task ⟨[⟨1, "t", none, "pending", 5, 0, none⟩], [], [], 2, 1⟩
        ⟨5, "user"⟩ 1 []).2.2 = [Event.storeQuery] :=
  ⟨rfl, rfl⟩

/-- C9 (amended): a list-tasks request in which either date filter
(`created_after` or `created_before`) fails ISO parsing is rejected by the
schema validator with the specific message before any store query and
before any cache read or write (empty trace); an empty-bodied update on an
existing, authorized task is rejected with its specific 400 message before
the store mutation and before any cache operation, but after the single
task-lookup store query. -/
theorem validation_rejection (E : Ext) (st : St) (u : User) (page page_size : Nat)
    (status : Option String) (owner_id : Option Nat)
    (title_contains ca cb : Option String) (tid : Nat) (t : Task)
    (hdate : (truthyStr ca = true ∧ E.parseIso (replaceZ (ca.getD "")) = none) ∨
             (truthyStr cb = true ∧ E.parseIso (replaceZ (cb.getD "")) = none)) :
    get_tasks E st u page page_size status owner_id title_contains ca cb
      = (.error (.validation "Invalid ISO date format"), st, []) ∧
    (get_task_by_id st.tasks tid = some t → (u.role = "admin" ∨ t.owner_id = u.id) →
      update_task st u tid []
        = (.error (.http 400 "No fields to update"), st, [Event.storeQuery])) := by
  constructor
  · unfold get_tasks
    have hmk : TaskFilters.make E status (if u.role = "admin" then owner_id else none)
        title_contains ca cb = .error "Invalid ISO date format" := by
      rcases hdate with ⟨hca, hbad⟩ | ⟨hcb, hbad⟩
      · simp [TaskFilters.make, hca, hbad]
      · by_cases hca : truthyStr ca = true
        · rcases hpa : E.parseIso (replaceZ (ca.getD "")) with _ | d <;>
            simp [TaskFilters.make, hca, hpa, hcb, hbad]
        · simp [TaskFilters.make, hca, hcb, hbad]
    rw [hmk]
  · intro hfound hauth
    unfold update_task
    rw [hfound]
    have hcond : ¬ (u.role ≠ "admin" ∧ t.owner_id ≠ u.id) := by
      rcases hauth with h | h
      · intro hc
        exact hc.1 h
      · intro hc
        exact hc.2 h
    dsimp only
    rw [if_neg hcond]
    rfl

/-- Witness for the amended C9 at concrete requests: a malformed
`created_after`, a malformed `created_before`, and an empty update body. -/
theorem validation_rejection_witness :
    get_tasks ⟨fun _ => 0, fun _ => none, 0⟩ ⟨[], [], [], 1, 1⟩ ⟨5, "user"⟩ 1 20
        none none none (some "not-a-date") none
      = (.error (.validation "Invalid ISO date format"), ⟨[], [], [], 1, 1⟩, []) ∧
    get_tasks ⟨fun _ => 0, fun _ => none, 0⟩ ⟨[], [], [], 1, 1⟩ ⟨5, "user"⟩ 1 20
        none none none none (some "also-bad")
      = (.error (.validation "Invalid ISO date format"), ⟨[], [], [], 1, 1⟩, []) ∧
    update_task ⟨[⟨2, "t", none, "pending", 5, 0, none⟩], [], [], 3, 1⟩ ⟨5, "user"⟩ 2 []
      = (.error (.http 400 "No fields to update"),
         ⟨[⟨2, "t", none, "pending", 5, 0, none⟩], [], [], 3, 1⟩, [Event.storeQuery]) :=
  ⟨(validation_rejection ⟨fun _ => 0, fun _ => none, 0⟩ ⟨[], [], [], 1, 1⟩ ⟨5, "user"⟩
      1 20 none none none (some "not-a-date") none 2
      ⟨2, "t", none, "pending", 5, 0, none⟩ (Or.inl ⟨rfl, rfl⟩)).1,
   (validation_rejection ⟨fun _ => 0, fun _ => none, 0⟩ ⟨[], [], [], 1, 1⟩ ⟨5, "user"⟩
      1 20 none none none none (some "also-bad") 2
      ⟨2, "t", none, "pending", 5, 0, none⟩ (Or.inr ⟨rfl, rfl⟩)).1,
   (validation_rejection ⟨fun _ => 0, fun _ => none, 0⟩
      ⟨[⟨2, "t", none, "pending", 5, 0, none⟩], [], [], 3, 1⟩ ⟨5, "user"⟩
      1 20 none none none (some "not-a-date") none 2
      ⟨2, "t", none, "pending", 5, 0, none⟩ (Or.inl ⟨rfl, rfl⟩)).2 rfl (Or.inr rfl)⟩

/-- The store query of the list endpoint restricts non-admin results to
rows owned by the requesting user. -/
theorem gtwp_items_owned (E : Ext) (db : List Task) (page page_size : Nat)
    (filters : TaskFilters) (uid : Nat) (tasks : List Task) (total : Nat)
    (h : get_tasks_with_pagination E db page page_size filters uid false
      = .ok (tasks, total)) :
    ∀ t ∈ tasks, t.owner_id = uid := by
  unfold get_tasks_with_pagination at h
  rcases h1 : parseDateFilter E filters.created_after "Invalid created_after date format"
      with e | after
  · rw [h1] at h
    cases h
  · rw [h1] at h
    rcases h2 : parseDateFilter E filters.created_before "Invalid created_before date format"
        with e | before
    · rw [h2] at h
      cases h
    · rw [h2] at h
      simp only [Except.ok.injEq, Prod.mk.injEq] at h
      intro t ht
      rw [← h.1] at ht
      have ht2 := List.mem_of_mem_take ht
      have ht3 := List.mem_of_mem_drop ht2
      have ht4 := (sortBy_perm _ _).mem_iff.1 ht3
      have ht5 := List.mem_filter.1 ht4
      have hc := ht5.2
      unfold taskCond at hc
      simp only [Bool.and_eq_true] at hc
      have := hc.1.1.1.1
      simp only [Bool.not_false, if_pos] at this
      exact of_decide_eq_true this

/-- C10: for a non-admin caller a list-tasks request carrying an `owner_id`
filter is not rejected and behaves identically — same response, same cache
key, same state — to the request without `owner_id` (the filter is nulled
before both the query and the cache-key dict); and whenever the store was
actually queried, every item of the response is owned by the caller. -/
theorem owner_filter_discarded (E : Ext) (st : St) (u : User) (page page_size : Nat)
    (status : Option String) (oid : Nat) (title_contains ca cb : Option String)
    (hrole : u.role ≠ "admin") :
    get_tasks E st u page page_size status (some oid) title_contains ca cb
      = get_tasks E st u page page_size status none title_contains ca cb ∧
    (∀ resp st' tr, get_tasks E st u page page_size status (some oid) title_contains ca cb
        = (.ok resp, st', tr) → Event.storeQuery ∈ tr →
      ∀ it ∈ resp.items, it.owner_id = u.id) := by
  constructor
  · unfold get_tasks
    rw [if_neg hrole, if_neg hrole]
  · intro resp st' tr hres hsq it hit
    unfold get_tasks at hres
    rw [if_neg hrole] at hres
    rcases hmk : TaskFilters.make E status none title_contains ca cb with e | filters
    · rw [hmk] at hres
      simp at hres
    · rw [hmk] at hres
      simp only [] at hres
      rcases hcv : cacheRead st.cache (make_task_cache_key E.pyhash u.id
          (taskListKeyDict u page page_size status filters.owner_id
            title_contains ca cb)) with _ | cv
      · rw [hcv] at hres
        rcases hq : get_tasks_with_pagination E st.tasks page page_size filters u.id
            (decide (u.role = "admin")) with e | pr
        · rw [hq] at hres
          simp at hres
        · rw [hq] at hres
          rcases pr with ⟨tasks, total⟩
          simp only [Prod.mk.injEq] at hres
          rcases hres with ⟨hres1, _, _⟩
          have hresp : resp = PageTR.create (tasks.map TaskRead.from_orm) total page page_size := by
            cases hres1
            rfl
          rw [hresp] at hit
          have hit2 : it ∈ tasks.map TaskRead.from_orm := hit
          rw [List.mem_map] at hit2
          obtain ⟨t0, ht0, rfl⟩ := hit2
          have hadm : decide (u.role = "admin") = false := decide_eq_false hrole
          rw [hadm] at hq
          have := gtwp_items_owned E st.tasks page page_size filters u.id tasks total hq t0 ht0
          exact this
      · rcases cv with tr0 | p0
        · rw [hcv] at hres
          simp at hres
        · rw [hcv] at hres
          simp only [Prod.mk.injEq] at hres
          rcases hres with ⟨_, _, htr⟩
          rw [← htr] at hsq
          simp at hsq




/-- Witness for C10: a concrete non-admin request with an `owner_id` filter
equals the one without, and the served item belongs to the caller. -/
theorem owner_filter_discarded_witness :
    (get_tasks ⟨fun _ => 0, fun _ => none, 0⟩
        ⟨[⟨1, "t", none, "pending", 5, 3, none⟩], [], [], 2, 1⟩ ⟨5, "user"⟩ 1 20
        none (some 9) none none none
      = get_tasks ⟨fun _ => 0, fun _ => none, 0⟩
        ⟨[⟨1, "t", none, "pending", 5, 3, none⟩], [], [], 2, 1⟩ ⟨5, "user"⟩ 1 20
        none none none none none) ∧
    TaskRead.owner_id (TaskRead.from_orm ⟨1, "t", none, "pending", 5, 3, none⟩) = 5 :=
  ⟨(owner_filter_discarded ⟨fun _ => 0, fun _ => none, 0⟩
      ⟨[⟨1, "t", none, "pending", 5, 3, none⟩], [], [], 2, 1⟩ ⟨5, "user"⟩ 1 20
      none 9 none none none (by decide)).1,
   (owner_filter_discarded ⟨fun _ => 0, fun _ => none, 0⟩
      ⟨[⟨1, "t", none, "pending", 5, 3, none⟩], [], [], 2, 1⟩ ⟨5, "user"⟩ 1 20
      none 9 none none none (by decide)).2 _ _ _ rfl (by decide)
      (TaskRead.from_orm ⟨1, "t", none, "pending", 5, 3, none⟩) (by decide)⟩

end TaskManager
